import Mathlib

set_option maxHeartbeats 1000000

namespace Hemolymph

/-! Data model: src/cards.rs

`Keyword`, `KeywordData` and `CardID` are mutually recursive in the source
(`Keyword.data : Option<KeywordData>`, `KeywordData::CardID(CardID)`,
`CardID.keywords : Option<Vec<Keyword>>`), so they are modelled as a mutual
inductive family with accessor functions. -/

mutual

/-- The `Keyword` struct in `src/cards.rs`: a `name` plus optional `data`. -/
inductive Keyword where
  | mk (name : String) (data : Option KeywordData) : Keyword

/-- The `KeywordData` enum in `src/cards.rs`: a tagged union of either a partial
card pattern (`CardID`) or a bare literal string. -/
inductive KeywordData where
  | CardID (c : CardID) : KeywordData
  | String (s : String) : KeywordData

/-- The `CardID` struct in `src/cards.rs`: a partial card pattern, every field
optional.  Its field list is exactly: name, description, keywords, type, kins,
health, defense, power, abilities, functions.  There is no `cost` field. -/
inductive CardID where
  | mk (name : Option String) (description : Option String)
       (keywords : Option (List Keyword)) (type : Option String)
       (kins : Option (List String)) (health : Option Nat)
       (defense : Option Nat) (power : Option Nat)
       (abilities : Option (List String)) (functions : Option (List String)) : CardID

end

def Keyword.name : Keyword → String
  | .mk n _ => n

def Keyword.data : Keyword → Option KeywordData
  | .mk _ d => d

def CardID.name : CardID → Option String
  | .mk n _ _ _ _ _ _ _ _ _ => n

def CardID.description : CardID → Option String
  | .mk _ d _ _ _ _ _ _ _ _ => d

def CardID.keywords : CardID → Option (List Keyword)
  | .mk _ _ k _ _ _ _ _ _ _ => k

def CardID.type : CardID → Option String
  | .mk _ _ _ t _ _ _ _ _ _ => t

def CardID.kins : CardID → Option (List String)
  | .mk _ _ _ _ k _ _ _ _ _ => k

def CardID.health : CardID → Option Nat
  | .mk _ _ _ _ _ h _ _ _ _ => h

def CardID.defense : CardID → Option Nat
  | .mk _ _ _ _ _ _ d _ _ _ => d

def CardID.power : CardID → Option Nat
  | .mk _ _ _ _ _ _ _ p _ _ => p

def CardID.abilities : CardID → Option (List String)
  | .mk _ _ _ _ _ _ _ _ a _ => a

def CardID.functions : CardID → Option (List String)
  | .mk _ _ _ _ _ _ _ _ _ f => f

/-- The `Card` struct in `src/cards.rs`.  `usize` stats are modelled as `Nat`;
the `HashMap<String,String>` legality field is modelled as an association
list. -/
structure Card where
  id : String
  name : String
  img : List String
  description : String
  cost : Nat
  health : Nat
  defense : Nat
  power : Nat
  type : String
  keywords : List Keyword
  kins : List String
  abilities : List String
  artists : List String
  set : String
  legality : List (String × String)
  other : List String
  functions : List String


/-! String helpers.  Rust `str::contains` is a substring test and
`str::to_lowercase` maps characters to lower case; both are modelled over
`List Char` so that concrete instances reduce in the kernel. -/

/-- Arguments are `needle` then `hay`: does `hay` start with `needle`? -/
def startsWithChars : List Char → List Char → Bool
  | [], _ => true
  | _ :: _, [] => false
  | a :: as, b :: bs => a == b && startsWithChars as bs

/-- Does `needle` occur as a contiguous sublist of `hay`?  Models Rust
`str::contains`. -/
def occursInChars (needle : List Char) : List Char → Bool
  | [] => startsWithChars needle []
  | c :: rest => startsWithChars needle (c :: rest) || occursInChars needle rest

/-- Lower-cased character list of a string: models Rust `str::to_lowercase`
(restricted to the character-wise case mapping). -/
def lowerChars (s : String) : List Char :=
  s.toList.map Char.toLower

/-- Case-sensitive substring test between strings. -/
def strContains (hay needle : String) : Bool :=
  occursInChars needle.toList hay.toList

/-! src/search.rs -/

namespace Search

/-- The `QueryParams` struct in `src/search.rs`: both parameters are optional
query-string parameters. -/
structure QueryParams where
  query : Option String
  cost : Option String

end Search

/-- Function `fuzzy_search` in `src/search.rs`: no query parameter means no match;
otherwise the lower-cased card description or the lower-cased card name must
contain the lower-cased query text. -/
def fuzzy_search (card : Card) (query : Search.QueryParams) : Bool :=
  match query.query with
  | none => false
  | some q =>
      occursInChars (lowerChars q) (lowerChars card.description)
        || occursInChars (lowerChars q) (lowerChars card.name)

/-! The card store of src/main.rs.  `HashMap<String, Card>` is modelled as an
association list with at most one entry per key; `insert` replaces the value
held at an existing key, and collecting from an iterator (`create_card_map`)
inserts the cards in order, so a later duplicate id replaces an earlier one,
exactly as `HashMap::from_iter` behaves. -/

/-- Insertion into the association-list model of `HashMap<String, Card>`:
replaces the value at `k` when present, otherwise appends a new entry. -/
def hmInsert (m : List (String × Card)) (k : String) (v : Card) : List (String × Card) :=
  if m.any (fun p => p.1 == k) then
    m.map (fun p => if p.1 == k then (k, v) else p)
  else
    m ++ [(k, v)]

/-- Key lookup in the association-list model of `HashMap<String, Card>`. -/
def hmGet (m : List (String × Card)) (k : String) : Option Card :=
  (m.find? (fun p => p.1 == k)).map Prod.snd

/-- Function `create_card_map` in `src/main.rs`: keys every card by its own `id`. -/
def create_card_map (vec : List Card) : List (String × Card) :=
  vec.foldl (fun m c => hmInsert m c.id c) []

/-- The `IdViewParam` struct in `src/main.rs`. -/
structure IdViewParam where
  id : String

/-- Result of the `view_card` handler: either the JSON of the found card or
the literal body "oops". -/
inductive ViewCardResponse where
  | json (c : Card) : ViewCardResponse
  | oops : ViewCardResponse

/-- Handler `view_card` in `src/main.rs`: looks the requested id up in the card map
and answers with the card when found, with "oops" otherwise. -/
def view_card (cards : List (String × Card)) (query : IdViewParam) : ViewCardResponse :=
  match hmGet cards query.id with
  | some c => ViewCardResponse.json c
  | none => ViewCardResponse.oops

/-- One pass of the refresh loop in `main` (src/main.rs lines 132-149), after
the change event fired and the file was re-read: `parsed` is the outcome of
`serde_json::from_str::<Vec<Card>>`.  On success the whole map is replaced by
`create_card_map`; on a parse error the error is only logged and the current
map is kept. -/
def refreshStep (current : List (String × Card)) (parsed : Option (List Card)) :
    List (String × Card) :=
  match parsed with
  | some data => create_card_map data
  | none => current

/-! The query language.  The parser and the evaluator live in the external
`hemoglobin` crate, which is not part of this repository; they are modelled
from the spec (sections 4.1, 4.2 and 7). -/

/-- Numeric card attributes a comparison restriction can name. -/
inductive NumField where
  | cost | health | defense | power
deriving Repr, DecidableEq

/-- Text card attributes a restriction can name. -/
inductive TextField where
  | name | type | description
deriving Repr, DecidableEq

/-- Set-valued card attributes a restriction can name. -/
inductive SetField where
  | kins | abilities | functions | other | artists
deriving Repr, DecidableEq

/-- Comparison operators of the query language. -/
inductive CmpOp where
  | gt | lt | eq | ne | ge | le
deriving Repr, DecidableEq

/-- Modelled from the spec: `QueryRestriction`, one parsed predicate
(spec section 3). -/
inductive QueryRestriction where
  | Fuzzy (text : String) : QueryRestriction
  | Comparison (field : NumField) (op : CmpOp) (n : Nat) : QueryRestriction
  | Contains (field : TextField) (s : String) : QueryRestriction
  | SetContains (field : SetField) (v : String) : QueryRestriction
  | KeywordNameContains (v : String) : QueryRestriction
deriving Repr, DecidableEq

/-- Modelled from the spec: the parse-error taxonomy of spec section 7. -/
inductive ParseError where
  | UnknownField (f : String) : ParseError
  | InvalidNumber (tok : String) : ParseError
  | MalformedToken (tok : String) : ParseError
deriving Repr, DecidableEq

/-- A token produced by the tokenizer: quoted segments are single tokens kept
apart from plain ones, because a quoted token is always a fuzzy term. -/
inductive QToken where
  | plain (s : String) : QToken
  | quoted (s : String) : QToken
deriving Repr, DecidableEq

/-- Fuel-driven tokenizer worker: splits on whitespace, except that a segment
between double quotes is one token preserving internal whitespace.  Each step
consumes at least one character, so fuel `length + 1` is always enough. -/
def tokenizeFuel : Nat → List Char → List QToken
  | 0, _ => []
  | _ + 1, [] => []
  | fuel + 1, c :: rest =>
    if c == '"' then
      QToken.quoted (String.mk (rest.takeWhile (fun d => d != '"')))
        :: tokenizeFuel fuel ((rest.dropWhile (fun d => d != '"')).drop 1)
    else if c.isWhitespace then
      tokenizeFuel fuel rest
    else
      QToken.plain (String.mk ((c :: rest).takeWhile (fun d => !d.isWhitespace && d != '"')))
        :: tokenizeFuel fuel ((c :: rest).dropWhile (fun d => !d.isWhitespace && d != '"'))

/-- Modelled from the spec: the tokenizer of spec section 4.1 (whitespace
separation, quoted segments as single tokens). -/
def tokenize (s : String) : List QToken :=
  tokenizeFuel (s.toList.length + 1) s.toList

/-- Numeric field names recognized by the grammar (spec section 4.1). -/
def numFieldOfName : String → Option NumField
  | "cost" => some NumField.cost
  | "health" => some NumField.health
  | "defense" => some NumField.defense
  | "power" => some NumField.power
  | _ => none

/-- Text field names recognized by the grammar (spec section 4.1). -/
def textFieldOfName : String → Option TextField
  | "name" => some TextField.name
  | "type" => some TextField.type
  | "description" => some TextField.description
  | _ => none

/-- Set field names recognized by the grammar (spec section 4.1). -/
def setFieldOfName : String → Option SetField
  | "kins" => some SetField.kins
  | "abilities" => some SetField.abilities
  | "functions" => some SetField.functions
  | "other" => some SetField.other
  | "artists" => some SetField.artists
  | _ => none

/-- Decimal digits to a non-negative integer; `none` when the list is empty
or holds a non-digit. -/
def natOfChars (cs : List Char) : Option Nat :=
  if cs.isEmpty then none
  else if cs.all Char.isDigit then
    some (cs.foldl (fun n c => n * 10 + (c.toNat - 48)) 0)
  else none

/-- Characters that can open an operator inside a token. -/
def isOpChar (c : Char) : Bool :=
  c == ':' || c == '>' || c == '<' || c == '=' || c == '!'

/-- Modelled from the spec: classification of one token, in the priority
order of spec section 4.1: `field<op>value` first, then `field:value`, and
anything else (including quoted text) is a fuzzy term.  Unknown field names
are an `UnknownField` error; a non-numeric value for a numeric field is an
`InvalidNumber` error. -/
def classifyToken : QToken → Except ParseError QueryRestriction
  | QToken.quoted s => Except.ok (QueryRestriction.Fuzzy s)
  | QToken.plain s =>
    let cs := s.toList
    let fieldCs := cs.takeWhile (fun c => !isOpChar c)
    let rest := cs.dropWhile (fun c => !isOpChar c)
    if fieldCs.isEmpty then Except.ok (QueryRestriction.Fuzzy s)
    else
      let field := String.mk fieldCs
      match rest with
      | ':' :: v =>
        let value := String.mk v
        if field == "keyword" then Except.ok (QueryRestriction.KeywordNameContains value)
        else
          match setFieldOfName field with
          | some f => Except.ok (QueryRestriction.SetContains f value)
          | none =>
            match textFieldOfName field with
            | some f => Except.ok (QueryRestriction.Contains f value)
            | none => Except.error (ParseError.UnknownField field)
      | '>' :: '=' :: v => classifyCmp field CmpOp.ge v
      | '<' :: '=' :: v => classifyCmp field CmpOp.le v
      | '!' :: '=' :: v => classifyCmp field CmpOp.ne v
      | '>' :: v => classifyCmp field CmpOp.gt v
      | '<' :: v => classifyCmp field CmpOp.lt v
      | '=' :: v => classifyCmp field CmpOp.eq v
      | _ => Except.ok (QueryRestriction.Fuzzy s)
where
  /-- Classification of a `field<op>value` token once field, operator and
  value are isolated. -/
  classifyCmp (field : String) (op : CmpOp) (v : List Char) :
      Except ParseError QueryRestriction :=
    match numFieldOfName field with
    | some f =>
      match natOfChars v with
      | some n => Except.ok (QueryRestriction.Comparison f op n)
      | none => Except.error (ParseError.InvalidNumber (String.mk v))
    | none =>
      match textFieldOfName field with
      | some f => Except.ok (QueryRestriction.Contains f (String.mk v))
      | none => Except.error (ParseError.UnknownField field)

/-- Classification of a token list: the whole query fails as one unit on the
first failing token (spec section 4.1: no partial parsing). -/
def classifyTokens : List QToken → Except ParseError (List QueryRestriction)
  | [] => Except.ok []
  | t :: ts =>
    match classifyToken t, classifyTokens ts with
    | Except.ok r, Except.ok rs => Except.ok (r :: rs)
    | Except.error e, _ => Except.error e
    | _, Except.error e => Except.error e

/-- Modelled from the spec: `parseQuery` of the external `hemoglobin`
crate, per spec section 4.1 — tokenize, then classify every token; an empty
query yields an empty restriction list. -/
def parseQuery (s : String) : Except ParseError (List QueryRestriction) :=
  classifyTokens (tokenize s)

/-- Numeric attribute of a card named by a field selector. -/
def getNumField (c : Card) : NumField → Nat
  | NumField.cost => c.cost
  | NumField.health => c.health
  | NumField.defense => c.defense
  | NumField.power => c.power

/-- Text attribute of a card named by a field selector. -/
def getTextField (c : Card) : TextField → String
  | TextField.name => c.name
  | TextField.type => c.type
  | TextField.description => c.description

/-- Set-valued attribute of a card named by a field selector. -/
def getSetField (c : Card) : SetField → List String
  | SetField.kins => c.kins
  | SetField.abilities => c.abilities
  | SetField.functions => c.functions
  | SetField.other => c.other
  | SetField.artists => c.artists

/-- Evaluation of a comparison operator on natural numbers. -/
def cmpOpEval : CmpOp → Nat → Nat → Bool
  | CmpOp.gt, a, b => Nat.blt b a
  | CmpOp.lt, a, b => Nat.blt a b
  | CmpOp.eq, a, b => Nat.beq a b
  | CmpOp.ne, a, b => !Nat.beq a b
  | CmpOp.ge, a, b => Nat.ble b a
  | CmpOp.le, a, b => Nat.ble a b

/-- Modelled from the spec: evaluation of one restriction against one card
(spec section 4.2).  A fuzzy term is matched against the searchable fields
exactly as `fuzzy_search` in `src/search.rs` does (lower-cased substring of
description or name); `Contains` is a case-insensitive substring test;
`SetContains` is case-sensitive membership; `KeywordNameContains` is a
case-insensitive substring test on keyword names.  The collection argument is
part of the spec contract (cross-card keyword lookup) although none of the
five restriction variants reads it. -/
def matchesRestriction (_coll : List Card) (c : Card) : QueryRestriction → Bool
  | QueryRestriction.Fuzzy text =>
      occursInChars (lowerChars text) (lowerChars c.description)
        || occursInChars (lowerChars text) (lowerChars c.name)
  | QueryRestriction.Comparison f op n => cmpOpEval op (getNumField c f) n
  | QueryRestriction.Contains f s =>
      occursInChars (lowerChars s) (lowerChars (getTextField c f))
  | QueryRestriction.SetContains f v => (getSetField c f).contains v
  | QueryRestriction.KeywordNameContains v =>
      c.keywords.any (fun k => occursInChars (lowerChars v) (lowerChars k.name))

/-- Modelled from the spec: `matches(card, restrictions, collection)` of spec
section 4.2 — every restriction must hold, combined with logical AND; an
empty restriction list matches everything. -/
def matchesQuery (c : Card) (rs : List QueryRestriction) (coll : List Card) : Bool :=
  rs.all (fun r => matchesRestriction coll c r)

/-- Modelled from the spec: the filtering part of `hemoglobin::search::search`
(spec sections 4.2 and 4.3) — a linear scan keeping the cards that satisfy
all restrictions, in scan order.  The ranker reorders the kept cards by a
floating-point score but never adds or removes a card; that pure reordering
is omitted here (spec section 4.3 returns scan order for queries without a
fuzzy component). -/
def hemoglobin_search (rs : List QueryRestriction) (cards : List Card) : List Card :=
  cards.filter (fun c => matchesQuery c rs cards)

/-- Rendering of one restriction back to query-text form. -/
def renderRestriction : QueryRestriction → String
  | QueryRestriction.Fuzzy text => text
  | QueryRestriction.Comparison f op n =>
    (match f with
      | NumField.cost => "cost"
      | NumField.health => "health"
      | NumField.defense => "defense"
      | NumField.power => "power")
      ++ (match op with
        | CmpOp.gt => ">"
        | CmpOp.lt => "<"
        | CmpOp.eq => "="
        | CmpOp.ne => "!="
        | CmpOp.ge => ">="
        | CmpOp.le => "<=")
      ++ toString n
  | QueryRestriction.Contains f s =>
    (match f with
      | TextField.name => "name"
      | TextField.type => "type"
      | TextField.description => "description") ++ "=" ++ s
  | QueryRestriction.SetContains f v =>
    (match f with
      | SetField.kins => "kins"
      | SetField.abilities => "abilities"
      | SetField.functions => "functions"
      | SetField.other => "other"
      | SetField.artists => "artists") ++ ":" ++ v
  | QueryRestriction.KeywordNameContains v => "keyword:" ++ v

/-- Modelled from the spec: the `Display` rendering of a restriction list
used by the handler for the echoed `query_text` (spec section 4.1, canonical
text form). -/
def renderRestrictions (rs : List QueryRestriction) : String :=
  String.intercalate " " (rs.map renderRestriction)

/-- Debug-style rendering of a parse error, standing for the Rust
`{error:#?}` formatting. -/
def renderParseError : ParseError → String
  | ParseError.UnknownField f => "UnknownField " ++ f
  | ParseError.InvalidNumber tok => "InvalidNumber " ++ tok
  | ParseError.MalformedToken tok => "MalformedToken " ++ tok

/-- The `QueryParams` struct in `src/main.rs`: the optional `query`
query-string parameter of the search route. -/
structure QueryParams where
  query : Option String

/-- The `QueryResult` enum in `src/main.rs`: the body of every `/api/search`
response is one of these two structured values. -/
inductive QueryResult where
  | CardList (query_text : String) (content : List Card) : QueryResult
  | Error (message : String) : QueryResult

/-- The apostrophe character, used by the error message of the handler. -/
def apostrophe : String :=
  String.singleton (Char.ofNat 39)

/-- Handler `search` in `src/main.rs`: a missing query parameter defaults to
the empty string (`unwrap_or_default`); a parsed query is filtered over the
snapshot and echoed back; a parse error is answered with a structured
`QueryResult.Error` whose message embeds the error. -/
def search (snapshot : List Card) (query : QueryParams) : QueryResult :=
  match parseQuery (query.query.getD "") with
  | Except.ok query_restrictions =>
      QueryResult.CardList (renderRestrictions query_restrictions)
        (hemoglobin_search query_restrictions snapshot)
  | Except.error error =>
      QueryResult.Error
        ("Query couldn" ++ apostrophe ++ "t be parsed: " ++ renderParseError error)

/-! Serialization shape of `CardID` (src/cards.rs): every field carries
`skip_serializing_if = "Option::is_none"`, so a field appears in the JSON
object exactly when it is `Some`.  `toJsonKeys` lists the keys the serialized
object carries, in declaration order. -/

/-- Keys present in the serialized JSON object of a `CardID` pattern. -/
def CardID.toJsonKeys (p : CardID) : List String :=
  (if p.name.isSome then ["name"] else [])
    ++ (if p.description.isSome then ["description"] else [])
    ++ (if p.keywords.isSome then ["keywords"] else [])
    ++ (if p.type.isSome then ["type"] else [])
    ++ (if p.kins.isSome then ["kins"] else [])
    ++ (if p.health.isSome then ["health"] else [])
    ++ (if p.defense.isSome then ["defense"] else [])
    ++ (if p.power.isSome then ["power"] else [])
    ++ (if p.abilities.isSome then ["abilities"] else [])
    ++ (if p.functions.isSome then ["functions"] else [])

/-- The `CardID` pattern with every field absent. -/
def emptyCardID : CardID :=
  CardID.mk none none none none none none none none none none

/-! External representation of `Card` (src/cards.rs).  Serde derives
`Deserialize`/`Serialize` for `Card`: each field of the record below is
`some v` when the external JSON document carries the field (with value `v`)
and `none` when the document omits it. -/

/-- Field-presence view of the external JSON representation of a card. -/
structure CardRepr where
  id : Option String
  name : Option String
  img : Option (List String)
  description : Option String
  cost : Option Nat
  health : Option Nat
  defense : Option Nat
  power : Option Nat
  type : Option String
  keywords : Option (List Keyword)
  kins : Option (List String)
  abilities : Option (List String)
  artists : Option (List String)
  set : Option String
  legality : Option (List (String × String))
  other : Option (List String)
  functions : Option (List String)

/-- Deserialization of a card per the serde derive on `Card` in
`src/cards.rs`: the fields without attributes (`id`, `name`, `description`,
`cost`, `health`, `defense`, `power`, `type`, `set`, `legality`) are
required and deserialization fails when one is missing; the fields marked
`#[serde(default)]` (`img`, `keywords`, `kins`, `abilities`, `artists`,
`other`, `functions`) default to the empty list when missing. -/
def Card.fromRepr (r : CardRepr) : Option Card := do
  let id ← r.id
  let name ← r.name
  let description ← r.description
  let cost ← r.cost
  let health ← r.health
  let defense ← r.defense
  let power ← r.power
  let ty ← r.type
  let set ← r.set
  let legality ← r.legality
  pure
    { id := id, name := name, img := r.img.getD [], description := description,
      cost := cost, health := health, defense := defense, power := power,
      type := ty, keywords := r.keywords.getD [], kins := r.kins.getD [],
      abilities := r.abilities.getD [], artists := r.artists.getD [],
      set := set, legality := legality, other := r.other.getD [],
      functions := r.functions.getD [] }

/-- Serialization of a card per the serde derive on `Card` in
`src/cards.rs`: `Card` has no skip attributes, so every field is emitted. -/
def Card.toRepr (c : Card) : CardRepr :=
  { id := some c.id, name := some c.name, img := some c.img,
    description := some c.description, cost := some c.cost,
    health := some c.health, defense := some c.defense, power := some c.power,
    type := some c.type, keywords := some c.keywords, kins := some c.kins,
    abilities := some c.abilities, artists := some c.artists,
    set := some c.set, legality := some c.legality, other := some c.other,
    functions := some c.functions }

/-! Lemmas about the association-list model of the card map. -/

/-- Keys of the association-list map. -/
def keysOf (m : List (String × Card)) : List String :=
  m.map Prod.fst

lemma hmGet_map_replace_of_any (m : List (String × Card)) (k : String) (v : Card)
    (h : m.any (fun p => p.1 == k) = true) :
    hmGet (m.map (fun p => if p.1 == k then (k, v) else p)) k = some v := by
  induction m with
  | nil => simp at h
  | cons p t ih =>
    by_cases hp : p.1 = k
    · simp [hmGet, hp]
    · have hp2 : (p.1 == k) = false := by simp [hp]
      simp only [List.any_cons, hp2, Bool.false_or] at h
      have hgp : (if p.1 == k then (k, v) else p) = p := by simp [hp2]
      simp only [List.map_cons, hgp]
      unfold hmGet
      rw [List.find?_cons_of_neg _ (by simp [hp2])]
      exact ih h

lemma hmGet_append_single (m : List (String × Card)) (k : String) (v : Card)
    (h : m.any (fun p => p.1 == k) = false) :
    hmGet (m ++ [(k, v)]) k = some v := by
  induction m with
  | nil => simp [hmGet]
  | cons p t ih =>
    simp only [List.any_cons, Bool.or_eq_false_iff] at h
    simpa [hmGet, List.find?_cons, h.1] using ih h.2

/-- Inserting with key `k` makes lookup at `k` return the inserted value. -/
lemma hmGet_hmInsert_self (m : List (String × Card)) (k : String) (v : Card) :
    hmGet (hmInsert m k v) k = some v := by
  by_cases h : m.any (fun p => p.1 == k) = true
  · simpa [hmInsert, h] using hmGet_map_replace_of_any m k v h
  · have h2 : m.any (fun p => p.1 == k) = false := by
      revert h
      cases m.any (fun p => p.1 == k) <;> simp
    simpa [hmInsert, h2] using hmGet_append_single m k v h2

/-- The id-keyed invariant: every entry of the map stores a card under that
card own id. -/
def idKeyed (m : List (String × Card)) : Prop :=
  ∀ p ∈ m, (p.2).id = p.1

lemma idKeyed_hmInsert (m : List (String × Card)) (v : Card)
    (h : idKeyed m) : idKeyed (hmInsert m v.id v) := by
  unfold hmInsert
  split
  · intro p hp
    obtain ⟨q, hq, hqe⟩ := List.mem_map.1 hp
    by_cases hqk : q.1 = v.id
    · simp only [hqk, beq_self_eq_true, if_true] at hqe
      simp [← hqe]
    · have : (q.1 == v.id) = false := by simp [hqk]
      simp only [this, Bool.false_eq_true, if_false] at hqe
      exact hqe ▸ h q hq
  · intro p hp
    rcases List.mem_append.1 hp with hp | hp
    · exact h p hp
    · simp only [List.mem_singleton] at hp
      simp [hp]

lemma idKeyed_foldl (l : List Card) (m : List (String × Card)) (h : idKeyed m) :
    idKeyed (l.foldl (fun m c => hmInsert m c.id c) m) := by
  induction l generalizing m with
  | nil => exact h
  | cons c t ih => exact ih _ (idKeyed_hmInsert m c h)

lemma idKeyed_create_card_map (l : List Card) : idKeyed (create_card_map l) := by
  have : idKeyed ([] : List (String × Card)) := by intro p hp; simp at hp
  exact idKeyed_foldl l [] this

lemma hmGet_id (m : List (String × Card)) (k : String) (c : Card)
    (hm : idKeyed m) (h : hmGet m k = some c) : c.id = k := by
  unfold hmGet at h
  cases hfind : m.find? (fun p => p.1 == k) with
  | none => simp [hfind] at h
  | some p =>
    simp only [hfind] at h
    have hc : p.2 = c := by simpa using h
    have hp := List.find?_some hfind
    have hpm := List.mem_of_find?_eq_some hfind
    have hpk : p.1 = k := by simpa using hp
    rw [← hc, hm p hpm, hpk]

lemma hmGet_eq_none_iff (m : List (String × Card)) (k : String) :
    hmGet m k = none ↔ k ∉ keysOf m := by
  unfold hmGet keysOf
  rw [Option.map_eq_none', List.find?_eq_none]
  constructor
  · intro h hk
    obtain ⟨p, hp, hpe⟩ := List.mem_map.1 hk
    have h2 := h p hp
    simp [hpe] at h2
  · intro h p hp
    simp only [beq_iff_eq]
    intro hpk
    exact h (List.mem_map.2 ⟨p, hp, hpk⟩)

lemma keysOf_hmInsert (m : List (String × Card)) (k k2 : String) (v : Card) :
    k2 ∈ keysOf (hmInsert m k v) ↔ k2 ∈ keysOf m ∨ k2 = k := by
  unfold hmInsert
  split
  case isTrue h =>
    constructor
    · intro hk
      obtain ⟨p, hp, hpe⟩ := List.mem_map.1 hk
      obtain ⟨q, hq, hqe⟩ := List.mem_map.1 hp
      by_cases hqk : q.1 = k
      · simp only [hqk, beq_self_eq_true, if_true] at hqe
        right
        rw [← hpe, ← hqe]
      · have : (q.1 == k) = false := by simp [hqk]
        simp only [this, Bool.false_eq_true, if_false] at hqe
        left
        exact List.mem_map.2 ⟨q, hq, by rw [← hpe, ← hqe]⟩
    · intro hk
      rcases hk with hk | hk
      · obtain ⟨p, hp, hpe⟩ := List.mem_map.1 hk
        by_cases hpk : p.1 = k
        · refine List.mem_map.2 ⟨(k, v), List.mem_map.2 ⟨p, hp, by simp [hpk]⟩, ?_⟩
          simp [← hpe, hpk]
        · have : (p.1 == k) = false := by simp [hpk]
          exact List.mem_map.2 ⟨p, List.mem_map.2 ⟨p, hp, by simp [this]⟩, hpe⟩
      · simp only [List.any_eq_true] at h
        obtain ⟨p, hp, hpe⟩ := h
        have hpk : p.1 = k := by simpa using hpe
        refine List.mem_map.2 ⟨(k, v), List.mem_map.2 ⟨p, hp, by simp [hpk]⟩, by simp [hk]⟩
  case isFalse h =>
    unfold keysOf
    simp [List.mem_append]

lemma keysOf_create_card_map (l : List Card) (k : String) :
    k ∈ keysOf (create_card_map l) ↔ ∃ c ∈ l, c.id = k := by
  have main : ∀ (l : List Card) (m : List (String × Card)),
      k ∈ keysOf (l.foldl (fun m c => hmInsert m c.id c) m) ↔
        k ∈ keysOf m ∨ ∃ c ∈ l, c.id = k := by
    intro l
    induction l with
    | nil => intro m; simp
    | cons c t ih =>
      intro m
      rw [List.foldl_cons, ih, keysOf_hmInsert]
      constructor
      · rintro ((h | h) | h)
        · exact Or.inl h
        · exact Or.inr ⟨c, by simp, h.symm⟩
        · obtain ⟨d, hd, he⟩ := h
          exact Or.inr ⟨d, by simp [hd], he⟩
      · rintro (h | ⟨d, hd, he⟩)
        · exact Or.inl (Or.inl h)
        · rcases List.mem_cons.1 hd with hdc | hdt
          · exact Or.inl (Or.inr (by rw [hdc] at he; exact he.symm))
          · exact Or.inr ⟨d, hdt, he⟩
  rw [create_card_map, main l []]
  simp [keysOf]

lemma keysOf_hmInsert_eq_of_any (m : List (String × Card)) (k : String) (v : Card)
    (h : m.any (fun p => p.1 == k) = true) :
    keysOf (hmInsert m k v) = keysOf m := by
  unfold hmInsert keysOf
  simp only [h, if_true]
  rw [List.map_map]
  apply List.map_congr_left
  intro p _
  by_cases hpk : p.1 = k
  · simp [hpk]
  · simp [hpk]

lemma nodupKeys_hmInsert (m : List (String × Card)) (k : String) (v : Card)
    (h : (keysOf m).Nodup) : (keysOf (hmInsert m k v)).Nodup := by
  cases ha : m.any (fun p => p.1 == k) with
  | true => rw [keysOf_hmInsert_eq_of_any m k v ha]; exact h
  | false =>
    unfold hmInsert
    simp only [ha, Bool.false_eq_true, if_false]
    unfold keysOf
    rw [List.map_append]
    simp only [List.map_cons, List.map_nil]
    rw [List.nodup_append]
    refine ⟨h, List.nodup_singleton k, ?_⟩
    intro a hamem hk
    simp only [List.mem_singleton] at hk
    obtain ⟨p, hp, hpe⟩ := List.mem_map.1 hamem
    rw [List.any_eq_false] at ha
    exact (ha p hp) (by simp [hpe, hk])

lemma nodupKeys_create_card_map (l : List Card) :
    (keysOf (create_card_map l)).Nodup := by
  have main : ∀ (l : List Card) (m : List (String × Card)),
      (keysOf m).Nodup → (keysOf (l.foldl (fun m c => hmInsert m c.id c) m)).Nodup := by
    intro l
    induction l with
    | nil => intro m h; exact h
    | cons c t ih => intro m h; exact ih _ (nodupKeys_hmInsert m c.id c h)
  exact main l [] (by simp [keysOf])

lemma create_card_map_append_single (l : List Card) (c : Card) :
    create_card_map (l ++ [c]) = hmInsert (create_card_map l) c.id c := by
  unfold create_card_map
  rw [List.foldl_append]
  rfl

/-! Concrete cards used by witnesses. -/

/-- A concrete sample card. -/
def sampleCard : Card :=
  { id := "card-042", name := "Fox", img := [], description := "A fox.",
    cost := 3, health := 1, defense := 0, power := 2, type := "Unit",
    keywords := [], kins := ["Beast"], abilities := [], artists := [],
    set := "core", legality := [], other := [], functions := [] }

/-- A second card sharing `sampleCard` id, with a different name. -/
def sampleCardDup : Card :=
  { sampleCard with name := "Wolf" }

/-- C1: for every snapshot and id, the lookup behind `view_card` returns the
card whose `id` field equals the requested id when one is present in the
snapshot built by `create_card_map`, and the "oops" (absent) response when
none is present; being a total function, it never faults. -/
theorem view_card_lookup_correct (cards : List Card) (i : String) :
    ((∃ c ∈ cards, c.id = i) →
      ∃ c, view_card (create_card_map cards) ⟨i⟩ = ViewCardResponse.json c ∧ c.id = i)
    ∧ ((∀ c ∈ cards, c.id ≠ i) →
      view_card (create_card_map cards) ⟨i⟩ = ViewCardResponse.oops) := by
  constructor
  · rintro ⟨c, hc, hci⟩
    have hk : i ∈ keysOf (create_card_map cards) :=
      (keysOf_create_card_map cards i).2 ⟨c, hc, hci⟩
    cases hget : hmGet (create_card_map cards) i with
    | none => exact absurd hk ((hmGet_eq_none_iff _ _).1 hget)
    | some d =>
      refine ⟨d, ?_, hmGet_id _ _ _ (idKeyed_create_card_map cards) hget⟩
      simp [view_card, hget]
  · intro h
    have hk : i ∉ keysOf (create_card_map cards) := by
      intro hk
      obtain ⟨c, hc, hci⟩ := (keysOf_create_card_map cards i).1 hk
      exact h c hc hci
    have hget : hmGet (create_card_map cards) i = none := (hmGet_eq_none_iff _ _).2 hk
    simp [view_card, hget]

/-- Witness for C1 at a concrete snapshot: the id "card-042" is found and the
id "missing" is answered with "oops". -/
theorem view_card_lookup_correct_witness :
    (∃ c, view_card (create_card_map [sampleCard]) ⟨"card-042"⟩ = ViewCardResponse.json c
      ∧ c.id = "card-042")
    ∧ view_card (create_card_map [sampleCard]) ⟨"missing"⟩ = ViewCardResponse.oops :=
  ⟨(view_card_lookup_correct [sampleCard] "card-042").1 ⟨sampleCard, by simp, rfl⟩,
   (view_card_lookup_correct [sampleCard] "missing").2 (by
      intro c hc
      simp only [List.mem_singleton] at hc
      rw [hc]
      decide)⟩

/-- C10: `create_card_map` keys each card by its own id, so lookup at any key
only ever returns a card whose id equals that key; a later input card with a
duplicate id replaces the earlier one; the built map holds exactly one entry
per distinct id (its key list has no duplicates and carries a key exactly
when some input card has that id). -/
theorem create_card_map_id_invariant (l : List Card) (k : String) (c : Card) :
    (hmGet (create_card_map l) k = some c → c.id = k)
    ∧ hmGet (create_card_map (l ++ [c])) c.id = some c
    ∧ (keysOf (create_card_map l)).Nodup
    ∧ (k ∈ keysOf (create_card_map l) ↔ ∃ d ∈ l, d.id = k) := by
  refine ⟨fun h => hmGet_id _ _ _ (idKeyed_create_card_map l) h, ?_,
    nodupKeys_create_card_map l, keysOf_create_card_map l k⟩
  rw [create_card_map_append_single]
  exact hmGet_hmInsert_self _ _ _

/-- Witness for C10 at concrete cards: lookup in a one-card map returns a
card bearing the looked-up id, and a later card with the same id wins. -/
theorem create_card_map_id_invariant_witness :
    sampleCard.id = "card-042"
    ∧ hmGet (create_card_map ([sampleCardDup] ++ [sampleCard])) sampleCard.id = some sampleCard :=
  ⟨(create_card_map_id_invariant [sampleCard] "card-042" sampleCard).1 rfl,
   (create_card_map_id_invariant [sampleCardDup] "card-042" sampleCard).2.1⟩

/-- C7: AND-monotonicity of the restriction evaluator — a card matching a
sequence extended with one more restriction also matches the original
sequence, so adding a restriction can only shrink or preserve the matching
set. -/
theorem matches_and_monotone (R : List QueryRestriction) (r : QueryRestriction)
    (card : Card) (coll : List Card) :
    matchesQuery card (R ++ [r]) coll = true → matchesQuery card R coll = true := by
  intro h
  unfold matchesQuery at h ⊢
  rw [List.all_append, Bool.and_eq_true] at h
  exact h.1

/-- Witness for C7 at concrete data: `sampleCard` matches the two-restriction
query, hence the one-restriction one. -/
theorem matches_and_monotone_witness :
    matchesQuery sampleCard
      [QueryRestriction.Comparison NumField.cost CmpOp.gt 2] [] = true :=
  matches_and_monotone [QueryRestriction.Comparison NumField.cost CmpOp.gt 2]
    (QueryRestriction.SetContains SetField.kins "Beast") sampleCard [] rfl

/-- C9: the refresh step is atomic with respect to errors — when the new
file contents fail to deserialize the map is left exactly as it was, and the
map is only ever changed by wholesale replacement with
`create_card_map` of the freshly parsed card list. -/
theorem refresh_error_atomic (current : List (String × Card))
    (parsed : Option (List Card)) :
    refreshStep current none = current
    ∧ (∀ data, refreshStep current (some data) = create_card_map data)
    ∧ (refreshStep current parsed = current
        ∨ ∃ data, parsed = some data ∧ refreshStep current parsed = create_card_map data) := by
  refine ⟨rfl, fun _ => rfl, ?_⟩
  cases parsed with
  | none => exact Or.inl rfl
  | some data => exact Or.inr ⟨data, rfl, rfl⟩

lemma occursInChars_nil (hay : List Char) : occursInChars [] hay = true := by
  cases hay <;> simp [occursInChars, startsWithChars]

/-- C8: `fuzzy_search` returns true exactly when the request carries a query
parameter whose lower-cased text occurs in the lower-cased description or
name; a request with no query parameter matches no card, and a present but
empty query matches every card. -/
theorem fuzzy_search_characterization (card : Card) (req : Search.QueryParams) :
    (fuzzy_search card req = true ↔
      ∃ q, req.query = some q
        ∧ (occursInChars (lowerChars q) (lowerChars card.description)
            || occursInChars (lowerChars q) (lowerChars card.name)) = true)
    ∧ (req.query = none → fuzzy_search card req = false)
    ∧ (req.query = some "" → fuzzy_search card req = true) := by
  refine ⟨?_, ?_, ?_⟩
  · cases hq : req.query with
    | none => simp [fuzzy_search, hq]
    | some q =>
      simp only [fuzzy_search, hq]
      constructor
      · intro h
        exact ⟨q, rfl, h⟩
      · rintro ⟨q2, hq2, h2⟩
        rw [Option.some_inj] at hq2
        rw [hq2]
        exact h2
  · intro hq
    simp [fuzzy_search, hq]
  · intro hq
    have : lowerChars "" = [] := rfl
    simp [fuzzy_search, hq, this, occursInChars_nil]

/-- Witness for C8 at concrete data: the query "FOX" finds `sampleCard`, a
missing query parameter matches nothing, and an empty query matches. -/
theorem fuzzy_search_characterization_witness :
    fuzzy_search sampleCard { query := some "FOX", cost := none } = true
    ∧ fuzzy_search sampleCard { query := none, cost := none } = false
    ∧ fuzzy_search sampleCard { query := some "", cost := none } = true :=
  ⟨(fuzzy_search_characterization sampleCard
      { query := some "FOX", cost := none }).1.2 ⟨"FOX", rfl, by decide⟩,
   (fuzzy_search_characterization sampleCard
      { query := none, cost := none }).2.1 rfl,
   (fuzzy_search_characterization sampleCard
      { query := some "", cost := none }).2.2 rfl⟩

/-- C2 as stated is false on this code: the handler answers the unparseable
query "wisdom>3" with a structured `QueryResult.Error`; it does not run the
search with the raw text as a fuzzy term. -/
theorem search_parse_error_counterexample :
    search [] { query := some "wisdom>3" } =
      QueryResult.Error ("Query couldn" ++ apostrophe ++ "t be parsed: "
        ++ renderParseError (ParseError.UnknownField "wisdom")) := rfl

/-- C2 (amended): when the query string fails to parse, the handler responds
with a structured `QueryResult.Error` embedding the parse error, and never
with a card list — there is no fallback to a fuzzy search. -/
theorem search_parse_error_no_fallback (snapshot : List Card) (q : String)
    (e : ParseError) (h : parseQuery q = Except.error e) :
    search snapshot { query := some q } =
      QueryResult.Error ("Query couldn" ++ apostrophe ++ "t be parsed: "
        ++ renderParseError e)
    ∧ ∀ qt content, search snapshot { query := some q } ≠ QueryResult.CardList qt content := by
  have hs : search snapshot { query := some q } =
      QueryResult.Error ("Query couldn" ++ apostrophe ++ "t be parsed: "
        ++ renderParseError e) := by
    unfold search
    simp [h]
  exact ⟨hs, fun qt content hc => by rw [hs] at hc; exact QueryResult.noConfusion hc⟩

/-- Witness for the amended C2 at a concrete unparseable query. -/
theorem search_parse_error_no_fallback_witness :
    search [sampleCard] { query := some "wisdom>3" } =
      QueryResult.Error ("Query couldn" ++ apostrophe ++ "t be parsed: "
        ++ renderParseError (ParseError.UnknownField "wisdom")) :=
  (search_parse_error_no_fallback [sampleCard] "wisdom>3"
    (ParseError.UnknownField "wisdom") rfl).1

/-- C3: for every snapshot and request, the handler returns one of the two
structured `QueryResult` values — the filtered card list on a successful
parse and a renderable parse-failure value on a failed one; being a total
function, it never crashes on malformed query input. -/
theorem search_total_structured (snapshot : List Card) (params : QueryParams) :
    (∃ rs, parseQuery (params.query.getD "") = Except.ok rs
      ∧ search snapshot params =
          QueryResult.CardList (renderRestrictions rs) (hemoglobin_search rs snapshot))
    ∨ (∃ e, parseQuery (params.query.getD "") = Except.error e
      ∧ search snapshot params =
          QueryResult.Error ("Query couldn" ++ apostrophe ++ "t be parsed: "
            ++ renderParseError e)) := by
  cases h : parseQuery (params.query.getD "") with
  | ok rs =>
    left
    refine ⟨rs, rfl, ?_⟩
    unfold search
    simp [h]
  | error e =>
    right
    refine ⟨e, rfl, ?_⟩
    unfold search
    simp [h]

/-- C4: the empty query parses to the empty restriction list, the empty
restriction list matches every card, and a search with an absent query
parameter answers with the whole snapshot rather than an error. -/
theorem empty_query_matches_all :
    parseQuery "" = Except.ok []
    ∧ (∀ (card : Card) (coll : List Card), matchesQuery card [] coll = true)
    ∧ (∀ snapshot : List Card,
        search snapshot { query := none } =
          QueryResult.CardList (renderRestrictions []) snapshot) := by
  refine ⟨rfl, fun card coll => rfl, fun snapshot => ?_⟩
  unfold search
  have h : parseQuery ((none : Option String).getD "") = Except.ok [] := rfl
  rw [h]
  have h2 : hemoglobin_search [] snapshot = snapshot := by
    unfold hemoglobin_search
    have : ∀ c : Card, matchesQuery c [] snapshot = true := fun c => rfl
    simp [this]
  simp only [h2]

lemma mem_if_singleton (b : Bool) (x s : String) :
    s ∈ (if b = true then [x] else []) ↔ b = true ∧ s = x := by
  cases b <;> simp

lemma toJsonKeys_subset (p : CardID) (s : String) (hs : s ∈ CardID.toJsonKeys p) :
    s ∈ ["name", "description", "keywords", "type", "kins", "health", "defense",
      "power", "abilities", "functions"] := by
  unfold CardID.toJsonKeys at hs
  simp only [List.mem_append, mem_if_singleton] at hs
  rcases hs with ((((((((⟨_, h⟩ | ⟨_, h⟩) | ⟨_, h⟩) | ⟨_, h⟩) | ⟨_, h⟩) | ⟨_, h⟩)
    | ⟨_, h⟩) | ⟨_, h⟩) | ⟨_, h⟩) | ⟨_, h⟩ <;> simp [h]

/-- C5 as stated is false on this code: no serialized `CardID` pattern ever
carries a "cost" key — `cost` is not a field of the pattern, so not every
card field (in particular not all four numeric stats) is available in it. -/
theorem cardid_no_cost_key : ¬ ∃ p : CardID, "cost" ∈ CardID.toJsonKeys p := by
  rintro ⟨p, hp⟩
  have := toJsonKeys_subset p "cost" hp
  simp at this

/-- C5 (amended): every `Keyword` is a name plus optional data; the data is a
tagged union of either a bare literal string or a `CardID` partial card
pattern whose fields — name, description, keywords, type, kins, and the
numeric stats health, defense and power, plus abilities and functions — are
each optional; `cost` is not part of the pattern. -/
theorem keyword_data_shape :
    (∀ k : Keyword, k = Keyword.mk k.name k.data)
    ∧ (∀ kd : KeywordData,
        (∃ c, kd = KeywordData.CardID c) ∨ (∃ s, kd = KeywordData.String s))
    ∧ CardID.toJsonKeys emptyCardID = []
    ∧ CardID.toJsonKeys
        (CardID.mk (some "") (some "") (some []) (some "") (some [])
          (some 0) (some 0) (some 0) (some []) (some [])) =
        ["name", "description", "keywords", "type", "kins", "health", "defense",
          "power", "abilities", "functions"]
    ∧ (∀ p : CardID, "cost" ∉ CardID.toJsonKeys p) := by
  refine ⟨?_, ?_, rfl, rfl, ?_⟩
  · intro k
    cases k with
    | mk n d => rfl
  · intro kd
    cases kd with
    | CardID c => exact Or.inl ⟨c, rfl⟩
    | String s => exact Or.inr ⟨s, rfl⟩
  · intro p hp
    have := toJsonKeys_subset p "cost" hp
    simp at this

/-- Witness for the amended C5 at the all-absent pattern. -/
theorem keyword_data_shape_witness : "cost" ∉ CardID.toJsonKeys emptyCardID :=
  keyword_data_shape.2.2.2.2 emptyCardID

/-- C6: the external card representation round-trips losslessly through the
card model — deserializing then serializing preserves every field, any
omitted set-valued field (img, keywords, kins, abilities, artists, other,
functions) defaults to the empty list instead of failing, and every scalar
field is required for deserialization to succeed. -/
theorem card_repr_round_trip (r : CardRepr) (c : Card) :
    (Card.fromRepr r = some c →
      Card.toRepr c =
        { id := r.id, name := r.name, img := some (r.img.getD []),
          description := r.description, cost := r.cost, health := r.health,
          defense := r.defense, power := r.power, type := r.type,
          keywords := some (r.keywords.getD []), kins := some (r.kins.getD []),
          abilities := some (r.abilities.getD []),
          artists := some (r.artists.getD []), set := r.set,
          legality := r.legality, other := some (r.other.getD []),
          functions := some (r.functions.getD []) })
    ∧ ((r.id.isSome ∧ r.name.isSome ∧ r.description.isSome ∧ r.cost.isSome
        ∧ r.health.isSome ∧ r.defense.isSome ∧ r.power.isSome ∧ r.type.isSome
        ∧ r.set.isSome ∧ r.legality.isSome) → ∃ c2, Card.fromRepr r = some c2)
    ∧ ((r.id = none ∨ r.name = none ∨ r.description = none ∨ r.cost = none
        ∨ r.health = none ∨ r.defense = none ∨ r.power = none ∨ r.type = none
        ∨ r.set = none ∨ r.legality = none) → Card.fromRepr r = none) := by
  refine ⟨?_, ?_, ?_⟩
  · intro h
    simp only [Card.fromRepr, Option.bind_eq_bind, Option.bind_eq_some,
      Option.pure_def, Option.some_inj] at h
    obtain ⟨id, hid, nm, hnm, ds, hds, co, hco, he, hhe, de, hde, po, hpo,
      ty, hty, st, hst, lg, hlg, hc⟩ := h
    subst hc
    simp [Card.toRepr, hid, hnm, hds, hco, hhe, hde, hpo, hty, hst, hlg]
  · rintro ⟨hid, hnm, hds, hco, hhe, hde, hpo, hty, hst, hlg⟩
    obtain ⟨id, hid⟩ := Option.isSome_iff_exists.1 hid
    obtain ⟨nm, hnm⟩ := Option.isSome_iff_exists.1 hnm
    obtain ⟨ds, hds⟩ := Option.isSome_iff_exists.1 hds
    obtain ⟨co, hco⟩ := Option.isSome_iff_exists.1 hco
    obtain ⟨he, hhe⟩ := Option.isSome_iff_exists.1 hhe
    obtain ⟨de, hde⟩ := Option.isSome_iff_exists.1 hde
    obtain ⟨po, hpo⟩ := Option.isSome_iff_exists.1 hpo
    obtain ⟨ty, hty⟩ := Option.isSome_iff_exists.1 hty
    obtain ⟨st, hst⟩ := Option.isSome_iff_exists.1 hst
    obtain ⟨lg, hlg⟩ := Option.isSome_iff_exists.1 hlg
    refine ⟨Card.mk id nm (r.img.getD []) ds co he de po ty
      (r.keywords.getD []) (r.kins.getD []) (r.abilities.getD [])
      (r.artists.getD []) st lg (r.other.getD []) (r.functions.getD []), ?_⟩
    simp [Card.fromRepr, hid, hnm, hds, hco, hhe, hde, hpo, hty, hst, hlg]
  · intro h
    cases hfr : Card.fromRepr r with
    | none => rfl
    | some c2 =>
      exfalso
      simp only [Card.fromRepr, Option.bind_eq_bind, Option.bind_eq_some,
        Option.pure_def, Option.some_inj] at hfr
      obtain ⟨id, hid, nm, hnm, ds, hds, co, hco, he, hhe, de, hde, po, hpo,
        ty, hty, st, hst, lg, hlg, hc⟩ := hfr
      rcases h with h | h | h | h | h | h | h | h | h | h <;> simp_all

/-- Witness for C6 at a concrete representation: all scalar fields present
and all set-valued fields omitted deserializes to a card whose serialized
form fills the omitted collections with the empty list; dropping the id
makes deserialization fail. -/
theorem card_repr_round_trip_witness :
    (Card.toRepr
        { id := "card-042", name := "Fox", img := [], description := "A fox.",
          cost := 3, health := 1, defense := 0, power := 2, type := "Unit",
          keywords := [], kins := [], abilities := [], artists := [],
          set := "core", legality := [], other := [], functions := [] } =
      { id := some "card-042", name := some "Fox", img := some [],
        description := some "A fox.", cost := some 3, health := some 1,
        defense := some 0, power := some 2, type := some "Unit",
        keywords := some [], kins := some [], abilities := some [],
        artists := some [], set := some "core", legality := some [],
        other := some [], functions := some [] })
    ∧ Card.fromRepr
        { id := none, name := some "Fox", img := none, description := some "A fox.",
          cost := some 3, health := some 1, defense := some 0, power := some 2,
          type := some "Unit", keywords := none, kins := none, abilities := none,
          artists := none, set := some "core", legality := some [], other := none,
          functions := none } = none :=
  ⟨(card_repr_round_trip
      { id := some "card-042", name := some "Fox", img := none,
        description := some "A fox.", cost := some 3, health := some 1,
        defense := some 0, power := some 2, type := some "Unit",
        keywords := none, kins := none, abilities := none, artists := none,
        set := some "core", legality := some [], other := none,
        functions := none }
      { id := "card-042", name := "Fox", img := [], description := "A fox.",
        cost := 3, health := 1, defense := 0, power := 2, type := "Unit",
        keywords := [], kins := [], abilities := [], artists := [],
        set := "core", legality := [], other := [], functions := [] }).1 rfl,
   (card_repr_round_trip
      { id := none, name := some "Fox", img := none, description := some "A fox.",
        cost := some 3, health := some 1, defense := some 0, power := some 2,
        type := some "Unit", keywords := none, kins := none, abilities := none,
        artists := none, set := some "core", legality := some [], other := none,
        functions := none }
      sampleCard).2.2 (Or.inl rfl)⟩

end Hemolymph
